import Mathlib

/-!
Verification of the wurstliga data pipeline (src/app.py).

The development shallowly embeds the pandas-based pipeline:
  - `load_data`  : the loader/validator (app.py, lines 19-78); a dataframe is a
    header of column names plus rows of cells, a cell is missing (`na`), a
    number, or a string; pandas floats are modelled at integer precision.
  - `display_overall_standings` : the standings aggregation (lines 116-141).
  - `prepare_rank_chart_data`   : the cumulative rank time series (lines 81-90).
  - `display_individual_spieltag` : the per-round detail view (lines 195-233).
-/

/-- A cell of the tabular file after parsing: missing (NaN/NA), numeric, or text.
pandas floats are modelled at integer precision. -/
inductive Cell where
  | na : Cell
  | num : Int → Cell
  | str : String → Cell
deriving DecidableEq

/-- A dataframe: ordered column names and rows of cells, positionally aligned
with the header. -/
structure DF where
  header : List String
  rows : List (List Cell)
deriving DecidableEq

def colSpieltag : String := "Spieltag"
def colRankPos : String := "Rank_Pos"
def colName : String := "Name"
def colPunkteP : String := "Spieltagspunkte_P"
def colTabellenpunkte : String := "Tabellenpunkte"
def colTV : String := "TV"
def colNULL : String := "NULL"
def colSTS : String := "STS"

/-- app.py line 11: every column expected in the CSV, in fixed order. -/
def ALL_EXPECTED_COLUMNS : List String :=
  [colSpieltag, colRankPos, colName, colPunkteP, colTabellenpunkte, colTV, colNULL, colSTS]

/-- app.py line 13: the columns required for core functionality. -/
def REQUIRED_COLUMNS : List String :=
  [colSpieltag, colName, colTabellenpunkte, colTV, colNULL, colSTS]

/-- app.py line 23: the result frame for every failure path. -/
def empty_df : DF := ⟨ALL_EXPECTED_COLUMNS, []⟩

/-- First index of column `c` in a header (pandas column lookup). -/
def colIdx (header : List String) (c : String) : Option Nat :=
  header.findIdx? (· == c)

/-- The cell of `row` in column `c`; `na` when the column is absent or the row
is too short. -/
def getCell (header : List String) (row : List Cell) (c : String) : Cell :=
  match colIdx header c with
  | none => Cell.na
  | some i => row.getD i Cell.na

/-- app.py line 43: the fill value for a backfilled absent column. -/
def fillCellFor (c : String) : Cell :=
  if c ∈ [colTV, colNULL, colSTS] then Cell.num 0 else Cell.na

/-- app.py lines 41-45, one step: append column `c` with its fill value when it
is absent. -/
def addColIfMissing (df : DF) (c : String) : DF :=
  if c ∈ df.header then df
  else ⟨df.header ++ [c], df.rows.map (fun row => row ++ [fillCellFor c])⟩

/-- app.py lines 41-45: backfill every absent expected column. -/
def addMissingCols (df : DF) : DF :=
  ALL_EXPECTED_COLUMNS.foldl addColIfMissing df

/-- Semantics of `pd.to_numeric(_, errors="coerce")` on one cell: values that fail numeric
coercion become missing. -/
def toNumericCell : Cell → Cell
  | Cell.na => Cell.na
  | Cell.num n => Cell.num n
  | Cell.str s =>
    match s.toInt? with
    | some n => Cell.num n
    | none => Cell.na

/-- Semantics of `astype(str)` on one cell: a missing value renders as the text "nan". -/
def toStrCell : Cell → Cell
  | Cell.na => Cell.str ("nan")
  | Cell.num n => Cell.str (toString n)
  | Cell.str s => Cell.str s

/-- Rewrite the cell at position `i` (when there is one) through `f`. -/
def rowMapAt (i : Option Nat) (f : Cell → Cell) (row : List Cell) : List Cell :=
  match i with
  | none => row
  | some i => row.set i (f (row.getD i Cell.na))

/-- app.py lines 47-54, acting on one row: coerce the seven numeric columns
with `to_numeric(errors="coerce")` and cast `Name` to string, column by
column, in source order. -/
def coerceRow (h : List String) (row : List Cell) : List Cell :=
  rowMapAt (colIdx h colName) toStrCell
    (rowMapAt (colIdx h colSTS) toNumericCell
      (rowMapAt (colIdx h colNULL) toNumericCell
        (rowMapAt (colIdx h colTV) toNumericCell
          (rowMapAt (colIdx h colTabellenpunkte) toNumericCell
            (rowMapAt (colIdx h colPunkteP) toNumericCell
              (rowMapAt (colIdx h colRankPos) toNumericCell
                (rowMapAt (colIdx h colSpieltag) toNumericCell row)))))))

/-- app.py lines 47-54: the per-column coercions over the whole frame. The
header is unchanged by these per-column assignments. -/
def coerceTypes (df : DF) : DF :=
  ⟨df.header, df.rows.map (coerceRow df.header)⟩

/-- app.py lines 56-58: a row survives `dropna(subset=essential_cols)` iff every
essential cell is present. `essential_cols` equals `REQUIRED_COLUMNS`. -/
def rowValid (header : List String) (row : List Cell) : Bool :=
  REQUIRED_COLUMNS.all (fun c => getCell header row c != Cell.na)

/-- app.py line 58: drop the rows with a missing essential value. -/
def dropnaEssential (df : DF) : DF :=
  ⟨df.header, df.rows.filter (rowValid df.header)⟩

/-- app.py line 74: `df[ALL_EXPECTED_COLUMNS]`, the fixed complete column
selection in fixed order. -/
def selectCols (df : DF) (cols : List String) : DF :=
  ⟨cols, df.rows.map (fun row => cols.map (getCell df.header row))⟩

/-- The diagnostics the loader can emit alongside its result. -/
inductive Diag where
  | ok : Diag
  | infoEmptyFile : Diag
  | silentEmpty : Diag
  | fileNotFound : Diag
  | missingCols : List String → Diag
  | unexpectedError : Diag
deriving DecidableEq

/-- Which diagnostics are surfaced through `st.error` (visible error messages). -/
def Diag.isError : Diag → Bool
  | Diag.fileNotFound => true
  | Diag.missingCols _ => true
  | Diag.unexpectedError => true
  | _ => false

/-- The loader's input: the file is absent, zero-length on disk, raises in both
parse engines, or parses into a dataframe. -/
inductive FileInput where
  | missingFile : FileInput
  | emptyFile : FileInput
  | unparsable : FileInput
  | parsed : DF → FileInput

/-- What the loader hands back: the frame plus the diagnostic it emitted. -/
structure LoadResult where
  df : DF
  diag : Diag
deriving DecidableEq

/-- app.py lines 19-78, `load_data`: validate and clean the parsed file.
Every failure path returns `empty_df`; the `try`/`except` wrapper that turns an
unexpected exception into `empty_df` is the `unparsable` branch, so the
function is total. Note the `df.empty` check (line 34) runs before the
missing-column check (line 36). -/
def load_data : FileInput → LoadResult
  | FileInput.missingFile => ⟨empty_df, Diag.fileNotFound⟩
  | FileInput.emptyFile => ⟨empty_df, Diag.infoEmptyFile⟩
  | FileInput.unparsable => ⟨empty_df, Diag.unexpectedError⟩
  | FileInput.parsed t =>
    if t.rows.isEmpty then ⟨empty_df, Diag.silentEmpty⟩
    else
      let missing := REQUIRED_COLUMNS.filter (fun c => decide (c ∉ t.header))
      if missing.isEmpty then
        let kept := dropnaEssential (coerceTypes (addMissingCols t))
        if kept.rows.isEmpty then ⟨empty_df, Diag.silentEmpty⟩
        else ⟨selectCols kept ALL_EXPECTED_COLUMNS, Diag.ok⟩
      else ⟨empty_df, Diag.missingCols missing⟩

/-- A validated row, as produced by a successful load: the six required fields
are present and numeric (the name a string); the two optional fields are
nullable. -/
structure Row where
  spieltag : Int
  rankPos : Option Int
  name : String
  punkteP : Option Int
  tabellenpunkte : Int
  tv : Int
  nullPunkte : Int
  sts : Int
deriving DecidableEq

/-- The per-participant totals a standings entry carries (app.py lines 122-128):
each numeric column summed over that participant's rows, missing optional
values contributing 0 (pandas sums skip NA). -/
structure Totals where
  name : String
  kick : Int
  wurst : Int
  tvSum : Int
  nullSum : Int
  stsSum : Int
deriving DecidableEq

/-- Sum of `f` over exactly the rows of participant `n`. -/
def sumBy (rows : List Row) (n : String) (f : Row → Int) : Int :=
  ((rows.filter (fun r => r.name == n)).map f).sum

/-- The aggregated totals of participant `n` (the `agg` of lines 122-128). -/
def totalsFor (rows : List Row) (n : String) : Totals :=
  ⟨n, sumBy rows n (fun r => r.punkteP.getD 0), sumBy rows n (fun r => r.tabellenpunkte),
    sumBy rows n (fun r => r.tv), sumBy rows n (fun r => r.nullPunkte),
    sumBy rows n (fun r => r.sts)⟩

/-- String order as pandas sorts names: lexicographic on the code points. -/
def strDataLe (a b : String) : Prop := a.data ≤ b.data

instance : DecidableRel strDataLe := fun a b =>
  inferInstanceAs (Decidable (a.data ≤ b.data))

/-- The distinct participant names in groupby order (groupby sorts its keys
ascending). -/
def groupNames (rows : List Row) : List String :=
  List.insertionSort strDataLe ((rows.map Row.name).dedup)

/-- app.py lines 129-132: sort order of the standings — summed `Tabellenpunkte`
descending, ties by summed `Spieltagspunkte_P` descending. -/
def standLe (a b : Totals) : Prop :=
  b.wurst < a.wurst ∨ (a.wurst = b.wurst ∧ b.kick ≤ a.kick)

instance : DecidableRel standLe := fun a b =>
  inferInstanceAs (Decidable (b.wurst < a.wurst ∨ (a.wurst = b.wurst ∧ b.kick ≤ a.kick)))

/-- A standings entry: the 1-based rank (`Rang`, lines 133-134) plus the totals. -/
structure StandEntry where
  rang : Nat
  totals : Totals
deriving DecidableEq

/-- app.py lines 116-141, `display_overall_standings`: group by name, aggregate
the sums, sort by (`Tabellenpunkte`, `Spieltagspunkte_P`) descending, and
assign strictly sequential 1-based ranks. -/
def display_overall_standings (rows : List Row) : List StandEntry :=
  (List.insertionSort standLe ((groupNames rows).map (totalsFor rows))).enum.map
    (fun p => ⟨p.1 + 1, p.2⟩)

/-- A row as `prepare_rank_chart_data` consumes it: the points may be missing
or non-numeric (`to_numeric(errors="coerce")` makes those NA). -/
structure ChartRow where
  spieltag : Int
  name : String
  punkte : Option Int
deriving DecidableEq

/-- A validated row viewed as chart input (its points are always present). -/
def Row.toChartRow (r : Row) : ChartRow := ⟨r.spieltag, r.name, some r.tabellenpunkte⟩

/-- app.py line 83: sort key of the chart — `Spieltag` ascending then `Name`
ascending. -/
def chartLe (a b : ChartRow) : Prop :=
  a.spieltag < b.spieltag ∨ (a.spieltag = b.spieltag ∧ a.name.data ≤ b.name.data)

instance : DecidableRel chartLe := fun a b =>
  inferInstanceAs (Decidable (a.spieltag < b.spieltag ∨
    (a.spieltag = b.spieltag ∧ a.name.data ≤ b.name.data)))

/-- app.py line 84: `to_numeric(errors="coerce").fillna(0)` — missing points
count as 0. -/
def fillPts (r : ChartRow) : Int := r.punkte.getD 0

/-- app.py line 85, `groupby("Name")["Tabellenpunkte"].cumsum()`: each emitted
value is the sum of the participant's points over the rows seen so far
(`processed` is the prefix already scanned). -/
def cumsumFrom (processed : List ChartRow) : List ChartRow → List (ChartRow × Int)
  | [] => []
  | r :: rs =>
    (r, (((processed ++ [r]).filter (fun x => x.name == r.name)).map fillPts).sum)
      :: cumsumFrom (processed ++ [r]) rs

/-- The number of distinct rounds (`df["Spieltag"].nunique()`). -/
def distinctRounds (l : List ChartRow) : Nat :=
  ((l.map ChartRow.spieltag).dedup).length

/-- app.py lines 87-88, `groupby("Spieltag").rank(method="min", ascending=False)`:
the rank of an entry is one more than the number of entries of the same round
with strictly larger cumulative points. -/
def rankAt (cl : List (ChartRow × Int)) (p : ChartRow × Int) : Nat :=
  1 + cl.countP (fun q => q.1.spieltag == p.1.spieltag && decide (p.2 < q.2))

/-- One emitted entry of the rank time series (line 90). -/
structure ChartEntry where
  spieltag : Int
  name : String
  rank : Nat
  cum : Int
deriving DecidableEq

/-- app.py lines 81-90, `prepare_rank_chart_data`: empty unless at least two
distinct rounds exist (an empty frame has zero distinct rounds, so line 82's
`df.empty or nunique < 2` is this one test); otherwise sort, cumulate per
participant, and rank within each round. -/
def prepare_rank_chart_data (l : List ChartRow) : List ChartEntry :=
  if distinctRounds l < 2 then []
  else
    let cl := cumsumFrom [] (List.insertionSort chartLe l)
    cl.map (fun p => ⟨p.1.spieltag, p.1.name, rankAt cl p, p.2⟩)

/-- Key order for `Spieltagspunkte_P` descending with NA placed last, non-strict. -/
def optDescLeB : Option Int → Option Int → Bool
  | Option.some x, Option.some y => decide (y ≤ x)
  | Option.some _, Option.none => true
  | Option.none, Option.some _ => false
  | Option.none, Option.none => true

/-- Key order for `Spieltagspunkte_P` descending with NA placed last, strict. -/
def optDescLtB : Option Int → Option Int → Bool
  | Option.some x, Option.some y => decide (y < x)
  | Option.some _, Option.none => true
  | Option.none, _ => false

/-- Equivalence of two optional sort keys (equal values, or both NA). -/
def optEqvB : Option Int → Option Int → Bool
  | Option.some x, Option.some y => x == y
  | Option.none, Option.none => true
  | _, _ => false

/-- Key order for `Rank_Pos` ascending with NA placed last, non-strict. -/
def optAscLeB : Option Int → Option Int → Bool
  | Option.some x, Option.some y => decide (x ≤ y)
  | Option.some _, Option.none => true
  | Option.none, Option.some _ => false
  | Option.none, Option.none => true

/-- app.py lines 208-209: detail sort with the external rank available —
`Tabellenpunkte` desc, `Spieltagspunkte_P` desc, `Rank_Pos` asc as final
tie-break (pandas puts NA last under each key). -/
def detailLe3 (a b : Row) : Prop :=
  b.tabellenpunkte < a.tabellenpunkte ∨ (a.tabellenpunkte = b.tabellenpunkte ∧
    (optDescLtB a.punkteP b.punkteP = true ∨
      (optEqvB a.punkteP b.punkteP = true ∧ optAscLeB a.rankPos b.rankPos = true)))

instance : DecidableRel detailLe3 := fun a b =>
  inferInstanceAs (Decidable (b.tabellenpunkte < a.tabellenpunkte ∨
    (a.tabellenpunkte = b.tabellenpunkte ∧
      (optDescLtB a.punkteP b.punkteP = true ∨
        (optEqvB a.punkteP b.punkteP = true ∧ optAscLeB a.rankPos b.rankPos = true)))))

/-- app.py lines 213-214: detail sort without the external rank —
`Tabellenpunkte` desc, `Spieltagspunkte_P` desc. -/
def detailLe2 (a b : Row) : Prop :=
  b.tabellenpunkte < a.tabellenpunkte ∨
    (a.tabellenpunkte = b.tabellenpunkte ∧ optDescLeB a.punkteP b.punkteP = true)

instance : DecidableRel detailLe2 := fun a b =>
  inferInstanceAs (Decidable (b.tabellenpunkte < a.tabellenpunkte ∨
    (a.tabellenpunkte = b.tabellenpunkte ∧ optDescLeB a.punkteP b.punkteP = true)))

/-- The detail view: whether the `Rank_Pos` column is shown, and the sorted
rows of the selected round. -/
structure DetailView where
  useRankPos : Bool
  rows : List Row
deriving DecidableEq

/-- app.py lines 195-233, `display_individual_spieltag` for one selected round:
`if selected_spieltag:` is Python truthiness, so round number 0 renders
nothing; otherwise filter to the round, decide whether any `Rank_Pos` is
non-null there (`isnull().all()` over the selection), and sort accordingly. -/
def display_individual_spieltag (rows : List Row) (s : Int) : Option DetailView :=
  if s = 0 then Option.none
  else
    let sel := rows.filter (fun r => r.spieltag == s)
    if sel.all (fun r => r.rankPos == Option.none) then
      Option.some ⟨false, List.insertionSort detailLe2 sel⟩
    else
      Option.some ⟨true, List.insertionSort detailLe3 sel⟩

/-! Concrete fixtures (the worked example of the spec, section 8, and small
loader inputs) used to instantiate the theorems below. -/

/-- The spec's worked example as chart input: two participants, two rounds. -/
def exChart : List ChartRow :=
  [⟨1, "A", some 10⟩, ⟨1, "B", some 5⟩, ⟨2, "A", some 0⟩, ⟨2, "B", some 20⟩]

/-- The spec's worked example as validated rows, with flags and external points. -/
def exRows : List Row :=
  [⟨1, some 1, "A", some 30, 10, 0, 0, 1⟩, ⟨1, some 2, "B", some 20, 5, 1, 0, 0⟩,
   ⟨2, some 2, "A", some 10, 0, 0, 1, 0⟩, ⟨2, some 1, "B", some 40, 20, 0, 0, 1⟩]

/-- A single-round row set (round 1 only). -/
def exOneRound : List Row :=
  [⟨1, some 1, "A", some 30, 10, 0, 0, 1⟩, ⟨1, some 2, "B", some 20, 5, 1, 0, 0⟩]

/-- A parsed file carrying only the six required columns and one clean row. -/
def exRequiredOnly : DF :=
  ⟨[colSpieltag, colName, colTabellenpunkte, colTV, colNULL, colSTS],
   [[Cell.num 1, Cell.str ("A"), Cell.num 3, Cell.num 0, Cell.num 0, Cell.num 0]]⟩

/-- A parsed file whose header lacks required columns and which has no data
rows (a header-only CSV parses to an empty frame). -/
def exHeaderOnly : DF := ⟨[colSpieltag, colName], []⟩

/-- A parsed file whose header lacks required columns and which has a data row. -/
def exMissingCols : DF := ⟨[colSpieltag, colName], [[Cell.num 1, Cell.str ("A")]]⟩

/-- A parsed file with a header but zero data rows. -/
def exNoRows : DF := ⟨ALL_EXPECTED_COLUMNS, []⟩

/-- A parsed file with one clean row and one row whose essential
`Tabellenpunkte` value fails numeric coercion. -/
def exDropRow : DF :=
  ⟨[colSpieltag, colName, colTabellenpunkte, colTV, colNULL, colSTS],
   [[Cell.num 1, Cell.str ("A"), Cell.num 3, Cell.num 0, Cell.num 0, Cell.num 0],
    [Cell.num 1, Cell.str ("B"), Cell.na, Cell.num 0, Cell.num 0, Cell.num 0]]⟩

/-! Totality and transitivity of the sort relations, so that
`List.sorted_insertionSort` applies. -/

instance : IsTotal String strDataLe := ⟨fun a b => le_total a.data b.data⟩

instance : IsTrans String strDataLe := ⟨fun _ _ _ h1 h2 => le_trans h1 h2⟩

instance : IsTotal Totals standLe := by
  constructor
  intro a b
  unfold standLe
  omega

instance : IsTrans Totals standLe := by
  constructor
  intro a b c h1 h2
  unfold standLe at h1 h2 ⊢
  omega

instance : IsTotal ChartRow chartLe := by
  constructor
  intro a b
  unfold chartLe
  rcases lt_trichotomy a.spieltag b.spieltag with h | h | h
  · exact Or.inl (Or.inl h)
  · rcases le_total a.name.data b.name.data with h2 | h2
    · exact Or.inl (Or.inr ⟨h, h2⟩)
    · exact Or.inr (Or.inr ⟨h.symm, h2⟩)
  · exact Or.inr (Or.inl h)

instance : IsTrans ChartRow chartLe := by
  constructor
  intro a b c h1 h2
  unfold chartLe at h1 h2 ⊢
  rcases h1 with h1 | ⟨h1, h1d⟩
  · rcases h2 with h2 | ⟨h2, _⟩
    · exact Or.inl (lt_trans h1 h2)
    · exact Or.inl (h2 ▸ h1)
  · rcases h2 with h2 | ⟨h2, h2d⟩
    · exact Or.inl (h1 ▸ h2)
    · exact Or.inr ⟨h1.trans h2, le_trans h1d h2d⟩

theorem optDescLeB_total (x y : Option Int) : optDescLeB x y = true ∨ optDescLeB y x = true := by
  cases x <;> cases y <;> simp [optDescLeB] <;> omega

theorem optDescLeB_trans {x y z : Option Int} (h1 : optDescLeB x y = true)
    (h2 : optDescLeB y z = true) : optDescLeB x z = true := by
  cases x <;> cases y <;> cases z <;> simp_all [optDescLeB] <;> omega

theorem optDescLtB_trichot (x y : Option Int) :
    optDescLtB x y = true ∨ optDescLtB y x = true ∨ optEqvB x y = true := by
  cases x <;> cases y <;> simp [optDescLtB, optEqvB] <;> omega

theorem optDescLtB_trans {x y z : Option Int} (h1 : optDescLtB x y = true)
    (h2 : optDescLtB y z = true) : optDescLtB x z = true := by
  cases x <;> cases y <;> cases z <;> simp_all [optDescLtB] <;> omega

theorem optEqvB_symm (x y : Option Int) : optEqvB x y = optEqvB y x := by
  cases x <;> cases y <;> simp [optEqvB] <;> omega

theorem optEqvB_trans {x y z : Option Int} (h1 : optEqvB x y = true)
    (h2 : optEqvB y z = true) : optEqvB x z = true := by
  cases x <;> cases y <;> cases z <;> simp_all [optEqvB]

theorem optDescLtB_congr_left {x y z : Option Int} (h : optEqvB x y = true) :
    optDescLtB x z = optDescLtB y z := by
  cases x <;> cases y <;> cases z <;> simp_all [optEqvB, optDescLtB]

theorem optDescLtB_congr_right {x y z : Option Int} (h : optEqvB x y = true) :
    optDescLtB z x = optDescLtB z y := by
  cases x <;> cases y <;> cases z <;> simp_all [optEqvB, optDescLtB]

theorem optAscLeB_total (x y : Option Int) : optAscLeB x y = true ∨ optAscLeB y x = true := by
  cases x <;> cases y <;> simp [optAscLeB] <;> omega

theorem optAscLeB_trans {x y z : Option Int} (h1 : optAscLeB x y = true)
    (h2 : optAscLeB y z = true) : optAscLeB x z = true := by
  cases x <;> cases y <;> cases z <;> simp_all [optAscLeB] <;> omega

instance : IsTotal Row detailLe2 := by
  constructor
  intro a b
  unfold detailLe2
  rcases lt_trichotomy a.tabellenpunkte b.tabellenpunkte with h | h | h
  · exact Or.inr (Or.inl h)
  · rcases optDescLeB_total a.punkteP b.punkteP with h2 | h2
    · exact Or.inl (Or.inr ⟨h, h2⟩)
    · exact Or.inr (Or.inr ⟨h.symm, h2⟩)
  · exact Or.inl (Or.inl h)

instance : IsTrans Row detailLe2 := by
  constructor
  intro a b c h1 h2
  unfold detailLe2 at h1 h2 ⊢
  rcases h1 with h1 | ⟨h1, h1p⟩
  · rcases h2 with h2 | ⟨h2, _⟩
    · exact Or.inl (lt_trans h2 h1)
    · exact Or.inl (h2 ▸ h1)
  · rcases h2 with h2 | ⟨h2, h2p⟩
    · exact Or.inl (h1 ▸ h2)
    · exact Or.inr ⟨h1.trans h2, optDescLeB_trans h1p h2p⟩

instance : IsTotal Row detailLe3 := by
  constructor
  intro a b
  unfold detailLe3
  rcases lt_trichotomy a.tabellenpunkte b.tabellenpunkte with h | h | h
  · exact Or.inr (Or.inl h)
  · rcases optDescLtB_trichot a.punkteP b.punkteP with h2 | h2 | h2
    · exact Or.inl (Or.inr ⟨h, Or.inl h2⟩)
    · exact Or.inr (Or.inr ⟨h.symm, Or.inl h2⟩)
    · rcases optAscLeB_total a.rankPos b.rankPos with h3 | h3
      · exact Or.inl (Or.inr ⟨h, Or.inr ⟨h2, h3⟩⟩)
      · exact Or.inr (Or.inr ⟨h.symm, Or.inr ⟨(optEqvB_symm a.punkteP b.punkteP) ▸ h2, h3⟩⟩)
  · exact Or.inl (Or.inl h)

instance : IsTrans Row detailLe3 := by
  constructor
  intro a b c h1 h2
  unfold detailLe3 at h1 h2 ⊢
  rcases h1 with h1 | ⟨h1, h1p⟩
  · rcases h2 with h2 | ⟨h2, _⟩
    · exact Or.inl (lt_trans h2 h1)
    · exact Or.inl (h2 ▸ h1)
  · rcases h2 with h2 | ⟨h2, h2p⟩
    · exact Or.inl (h1 ▸ h2)
    · refine Or.inr ⟨h1.trans h2, ?_⟩
      rcases h1p with h1p | ⟨h1e, h1r⟩
      · rcases h2p with h2p | ⟨h2e, _⟩
        · exact Or.inl (optDescLtB_trans h1p h2p)
        · exact Or.inl ((optDescLtB_congr_right h2e) ▸ h1p)
      · rcases h2p with h2p | ⟨h2e, h2r⟩
        · exact Or.inl ((optDescLtB_congr_left h1e) ▸ h2p)
        · exact Or.inr ⟨optEqvB_trans h1e h2e, optAscLeB_trans h1r h2r⟩

/-! Generic list lemmas used below. -/

theorem enum_map_comp {α β : Type} (l : List α) (f : α → β) :
    l.enum.map (fun p => f p.2) = l.map f := by
  have h : (fun p : Nat × α => f p.2) = f ∘ Prod.snd := rfl
  rw [h, ← List.map_map, List.enum_map_snd]

theorem enum_map_rang {α : Type} (l : List α) :
    l.enum.map (fun p => p.1 + 1) = List.range' 1 l.length := by
  have h : (fun p : Nat × α => p.1 + 1) = (fun n => n + 1) ∘ Prod.fst := rfl
  rw [h, ← List.map_map, List.enum_map_fst, List.range'_eq_map_range]
  simp [Nat.add_comm]

theorem countP_lt_of_witness {α : Type} {l : List α} {p q : α → Bool}
    (hmono : ∀ x ∈ l, p x = true → q x = true) {a : α} (ha : a ∈ l)
    (hqa : q a = true) (hpa : p a = false) : l.countP p < l.countP q := by
  obtain ⟨s, t, rfl⟩ := List.append_of_mem ha
  rw [List.countP_append, List.countP_append, List.countP_cons, List.countP_cons]
  have hs : s.countP p ≤ s.countP q :=
    List.countP_mono_left (fun x hx => hmono x (List.mem_append_left _ hx))
  have ht : t.countP p ≤ t.countP q :=
    List.countP_mono_left (fun x hx =>
      hmono x (List.mem_append_right _ (List.mem_cons_of_mem _ hx)))
  simp [hqa, hpa]
  omega

/-! Standings helpers. -/

theorem standings_map_totals (rows : List Row) :
    (display_overall_standings rows).map StandEntry.totals
      = List.insertionSort standLe ((groupNames rows).map (totalsFor rows)) := by
  unfold display_overall_standings
  rw [List.map_map]
  have h : (StandEntry.totals ∘ fun p : Nat × Totals => (⟨p.1 + 1, p.2⟩ : StandEntry))
      = Prod.snd := rfl
  rw [h, List.enum_map_snd]

theorem standings_map_rang (rows : List Row) :
    (display_overall_standings rows).map StandEntry.rang
      = List.range' 1 (display_overall_standings rows).length := by
  unfold display_overall_standings
  rw [List.map_map]
  have hlen : ((List.insertionSort standLe ((groupNames rows).map (totalsFor rows))).enum.map
      (fun p : Nat × Totals => (⟨p.1 + 1, p.2⟩ : StandEntry))).length
      = (List.insertionSort standLe ((groupNames rows).map (totalsFor rows))).length := by
    simp
  rw [hlen]
  exact enum_map_rang _

theorem totalsFor_name (rows : List Row) (n : String) : (totalsFor rows n).name = n := rfl

theorem standings_names_perm (rows : List Row) :
    ((display_overall_standings rows).map (fun e => e.totals.name)).Perm
      ((rows.map Row.name).dedup) := by
  have h1 : (display_overall_standings rows).map (fun e => e.totals.name)
      = ((display_overall_standings rows).map StandEntry.totals).map Totals.name := by
    rw [List.map_map]; rfl
  rw [h1, standings_map_totals]
  have h2 : ((List.insertionSort standLe ((groupNames rows).map (totalsFor rows))).map
      Totals.name).Perm (((groupNames rows).map (totalsFor rows)).map Totals.name) :=
    (List.perm_insertionSort standLe _).map Totals.name
  have h3 : ((groupNames rows).map (totalsFor rows)).map Totals.name = groupNames rows := by
    rw [List.map_map]
    have : (Totals.name ∘ totalsFor rows) = fun n => n := rfl
    rw [this, List.map_id']
  rw [h3] at h2
  exact h2.trans (List.perm_insertionSort strDataLe _)

theorem standings_totals_eq (rows : List Row) :
    ∀ e ∈ display_overall_standings rows, e.totals = totalsFor rows e.totals.name := by
  intro e he
  have h1 : e.totals ∈ (display_overall_standings rows).map StandEntry.totals :=
    List.mem_map_of_mem StandEntry.totals he
  rw [standings_map_totals] at h1
  have h2 : e.totals ∈ (groupNames rows).map (totalsFor rows) :=
    (List.perm_insertionSort standLe _).mem_iff.mp h1
  obtain ⟨n, _, hn⟩ := List.mem_map.mp h2
  have hname : e.totals.name = n := by rw [← hn]; rfl
  rw [hname]
  exact hn.symm

theorem standings_sorted (rows : List Row) :
    ((display_overall_standings rows).map StandEntry.totals).Pairwise standLe := by
  rw [standings_map_totals]
  exact List.sorted_insertionSort standLe _

/-- Claim C1: the overall standings hold exactly one entry per distinct
participant name; each entry's five summed fields equal the column sums over
exactly that participant's rows (missing optional values contributing 0); the
entries are sorted by summed `Tabellenpunkte` descending with ties broken by
summed `Spieltagspunkte_P` descending; and the ranks are the strictly
sequential 1-based positions in that order. -/
theorem claimC1_overall_standings (rows : List Row) :
    ((display_overall_standings rows).map (fun e => e.totals.name)).Perm
      ((rows.map Row.name).dedup)
    ∧ (∀ e ∈ display_overall_standings rows,
        e.totals.kick = sumBy rows e.totals.name (fun r => r.punkteP.getD 0) ∧
        e.totals.wurst = sumBy rows e.totals.name (fun r => r.tabellenpunkte) ∧
        e.totals.tvSum = sumBy rows e.totals.name (fun r => r.tv) ∧
        e.totals.nullSum = sumBy rows e.totals.name (fun r => r.nullPunkte) ∧
        e.totals.stsSum = sumBy rows e.totals.name (fun r => r.sts))
    ∧ ((display_overall_standings rows).map StandEntry.totals).Pairwise standLe
    ∧ (display_overall_standings rows).map StandEntry.rang
        = List.range' 1 (display_overall_standings rows).length := by
  refine ⟨standings_names_perm rows, ?_, standings_sorted rows, standings_map_rang rows⟩
  intro e he
  have h := standings_totals_eq rows e he
  refine ⟨?_, ?_, ?_, ?_, ?_⟩ <;> (rw [h]; rfl)

/-! Rank-time-series helpers. -/

theorem cumsumFrom_mem {rest : List ChartRow} :
    ∀ {processed : List ChartRow} {p : ChartRow × Int}, p ∈ cumsumFrom processed rest →
      ∃ pre post, rest = pre ++ p.1 :: post ∧
        p.2 = ((((processed ++ pre) ++ [p.1]).filter
          (fun x => x.name == p.1.name)).map fillPts).sum := by
  induction rest with
  | nil => intro processed p hp; simp [cumsumFrom] at hp
  | cons r rs ih =>
    intro processed p hp
    rcases List.mem_cons.mp hp with h | h
    · refine ⟨[], rs, ?_, ?_⟩
      · rw [h]
        rfl
      · rw [h]
        simp
    · obtain ⟨pre, post, hsplit, hsum⟩ := ih h
      refine ⟨r :: pre, post, by rw [hsplit]; simp, ?_⟩
      rw [hsum]
      have : processed ++ r :: pre = (processed ++ [r]) ++ pre := by simp
      rw [this]

theorem chartKey_nodup_not_mem {s P Q : List ChartRow} {r : ChartRow}
    (hnd : (s.map (fun x => (x.spieltag, x.name))).Nodup) (hdecomp : s = P ++ r :: Q) :
    ∀ y ∈ Q, ¬(y.name = r.name ∧ y.spieltag = r.spieltag) := by
  subst hdecomp
  intro y hy ⟨hn, hs⟩
  rw [List.map_append] at hnd
  have h2 := hnd.of_append_right
  rw [List.map_cons] at h2
  have h3 := (List.nodup_cons.mp h2).1
  exact h3 (List.mem_map.mpr ⟨y, hy, by rw [hn, hs]⟩)

theorem sorted_prefix_filter {s P Q : List ChartRow} {r : ChartRow}
    (hs : s.Pairwise chartLe)
    (hnd : (s.map (fun x => (x.spieltag, x.name))).Nodup)
    (hdecomp : s = P ++ r :: Q) :
    (P ++ [r]).filter (fun x => x.name == r.name)
      = s.filter (fun x => x.name == r.name && decide (x.spieltag ≤ r.spieltag)) := by
  have hQkey := chartKey_nodup_not_mem hnd hdecomp
  subst hdecomp
  rw [List.pairwise_append] at hs
  obtain ⟨_, hrQ, hPrel⟩ := hs
  have hP : ∀ x ∈ P, chartLe x r := fun x hx => hPrel x hx r (List.mem_cons_self r Q)
  have hQ : ∀ y ∈ Q, chartLe r y := (List.pairwise_cons.mp hrQ).1
  have hr : (r.name == r.name && decide (r.spieltag ≤ r.spieltag)) = true := by simp
  have hQnil : Q.filter (fun x => x.name == r.name && decide (x.spieltag ≤ r.spieltag)) = [] := by
    rw [List.filter_eq_nil_iff]
    intro y hy hpred
    rw [Bool.and_eq_true, beq_iff_eq, decide_eq_true_iff] at hpred
    obtain ⟨hyn, hyle⟩ := hpred
    rcases hQ y hy with hlt | ⟨heq, _⟩
    · omega
    · exact hQkey y hy ⟨hyn, heq.symm⟩
  have hPcongr : P.filter (fun x => x.name == r.name)
      = P.filter (fun x => x.name == r.name && decide (x.spieltag ≤ r.spieltag)) := by
    refine List.filter_congr ?_
    intro x hx
    rcases hxe : (x.name == r.name) with _ | _
    · simp
    · have hxle : x.spieltag ≤ r.spieltag := by
        rcases hP x hx with hlt | ⟨heq, _⟩
        · omega
        · omega
      simp [hxle]
  have hL : (P ++ [r]).filter (fun x => x.name == r.name)
      = P.filter (fun x => x.name == r.name) ++ [r] := by
    rw [List.filter_append]
    simp
  have hR : (P ++ r :: Q).filter (fun x => x.name == r.name && decide (x.spieltag ≤ r.spieltag))
      = P.filter (fun x => x.name == r.name && decide (x.spieltag ≤ r.spieltag))
        ++ r :: Q.filter (fun x => x.name == r.name && decide (x.spieltag ≤ r.spieltag)) := by
    simp only [List.filter_append, List.filter_cons, hr, if_true]
  rw [hL, hR, hQnil, hPcongr]

theorem prepare_mem_cum (l : List ChartRow)
    (hnd : (l.map (fun r => (r.spieltag, r.name))).Nodup) :
    ∀ e ∈ prepare_rank_chart_data l,
      e.cum = ((l.filter
        (fun x => x.name == e.name && decide (x.spieltag ≤ e.spieltag))).map fillPts).sum := by
  intro e he
  unfold prepare_rank_chart_data at he
  by_cases hcond : distinctRounds l < 2
  · rw [if_pos hcond] at he
    exact absurd he (List.not_mem_nil e)
  · rw [if_neg hcond] at he
    obtain ⟨p, hp, hfe⟩ := List.mem_map.mp he
    obtain ⟨pre, post, hsplit, hsum⟩ := cumsumFrom_mem hp
    have hsorted : (List.insertionSort chartLe l).Pairwise chartLe :=
      List.sorted_insertionSort chartLe l
    have hperm : (List.insertionSort chartLe l).Perm l := List.perm_insertionSort chartLe l
    have hnds : ((List.insertionSort chartLe l).map
        (fun x => (x.spieltag, x.name))).Nodup :=
      ((hperm.map (fun x => (x.spieltag, x.name))).nodup_iff).mpr hnd
    rw [List.nil_append] at hsum
    have hfilter := sorted_prefix_filter hsorted hnds hsplit
    rw [hfilter] at hsum
    have hpermf : ((List.insertionSort chartLe l).filter
        (fun x => x.name == p.1.name && decide (x.spieltag ≤ p.1.spieltag))).Perm
        (l.filter (fun x => x.name == p.1.name && decide (x.spieltag ≤ p.1.spieltag))) :=
      hperm.filter _
    rw [(hpermf.map fillPts).sum_eq] at hsum
    rw [← hfe]
    exact hsum

/-- Claim C2: in the rank time series, the cumulative value emitted for a
participant at round N is the sum of that participant's `Tabellenpunkte` over
all of their rows with round number at most N, missing or non-numeric values
counting as 0. The row set is one row per (round, participant), as the data
model requires, and has at least two distinct rounds. -/
theorem claimC2_cumulative_points (l : List ChartRow)
    (hr : 2 ≤ distinctRounds l)
    (hnd : (l.map (fun r => (r.spieltag, r.name))).Nodup) :
    ∀ e ∈ prepare_rank_chart_data l,
      e.cum = ((l.filter
        (fun x => x.name == e.name && decide (x.spieltag ≤ e.spieltag))).map fillPts).sum := by
  have _ := hr
  exact prepare_mem_cum l hnd

/-- Claim C2, instantiated: in the spec's worked example the cumulative value
of participant A at round 2 is 10, the sum of A's points in rounds 1 and 2. -/
theorem claimC2_cumulative_points_witness :
    (⟨2, "A", 2, 10⟩ : ChartEntry).cum = ((exChart.filter
      (fun x => x.name == (⟨2, "A", 2, 10⟩ : ChartEntry).name
        && decide (x.spieltag ≤ (⟨2, "A", 2, 10⟩ : ChartEntry).spieltag))).map fillPts).sum :=
  claimC2_cumulative_points exChart (by decide) (by decide) ⟨2, "A", 2, 10⟩ (by decide)

theorem prepare_rank_characterisation (l : List ChartRow) :
    ∀ e ∈ prepare_rank_chart_data l,
      e.rank = 1 + (prepare_rank_chart_data l).countP
        (fun q => q.spieltag == e.spieltag && decide (e.cum < q.cum)) := by
  intro e he
  unfold prepare_rank_chart_data at he ⊢
  by_cases hcond : distinctRounds l < 2
  · rw [if_pos hcond] at he
    exact absurd he (List.not_mem_nil e)
  · rw [if_neg hcond] at he ⊢
    obtain ⟨p, hp, hfe⟩ := List.mem_map.mp he
    rw [List.countP_map, ← hfe]
    rfl

/-- Claim C3: within any single round of the rank time series, an entry's rank
is one more than the number of same-round entries with strictly larger
cumulative score (competition or "min" ranking, so the next distinct value's
rank skips by the tie-group size); hence equal cumulative scores share a rank
and a strictly larger cumulative score gives a strictly smaller rank number. -/
theorem claimC3_round_ranks (l : List ChartRow) :
    (∀ e ∈ prepare_rank_chart_data l,
      e.rank = 1 + (prepare_rank_chart_data l).countP
        (fun q => q.spieltag == e.spieltag && decide (e.cum < q.cum)))
    ∧ (∀ e1 ∈ prepare_rank_chart_data l, ∀ e2 ∈ prepare_rank_chart_data l,
        e1.spieltag = e2.spieltag → e1.cum = e2.cum → e1.rank = e2.rank)
    ∧ (∀ e1 ∈ prepare_rank_chart_data l, ∀ e2 ∈ prepare_rank_chart_data l,
        e1.spieltag = e2.spieltag → e2.cum < e1.cum → e1.rank < e2.rank) := by
  refine ⟨prepare_rank_characterisation l, ?_, ?_⟩
  · intro e1 he1 e2 he2 hsp hcum
    rw [prepare_rank_characterisation l e1 he1, prepare_rank_characterisation l e2 he2,
      hsp, hcum]
  · intro e1 he1 e2 he2 hsp hlt
    rw [prepare_rank_characterisation l e1 he1, prepare_rank_characterisation l e2 he2]
    have hcount : (prepare_rank_chart_data l).countP
        (fun q => q.spieltag == e1.spieltag && decide (e1.cum < q.cum))
        < (prepare_rank_chart_data l).countP
          (fun q => q.spieltag == e2.spieltag && decide (e2.cum < q.cum)) := by
      refine countP_lt_of_witness ?_ he1 ?_ ?_
      · intro x _ hx
        rw [Bool.and_eq_true, beq_iff_eq, decide_eq_true_iff] at hx
        rw [Bool.and_eq_true, beq_iff_eq, decide_eq_true_iff]
        exact ⟨hsp ▸ hx.1, lt_trans hlt hx.2⟩
      · rw [Bool.and_eq_true, beq_iff_eq, decide_eq_true_iff]
        exact ⟨hsp, hlt⟩
      · rw [Bool.and_eq_false_iff]
        right
        simp
    omega

/-- Claim C4: with fewer than two distinct rounds (the empty set included) the
rank time series is empty, while the standings are still produced — one entry
per distinct participant. -/
theorem claimC4_single_round (rows : List Row)
    (h : ((rows.map Row.spieltag).dedup).length < 2) :
    prepare_rank_chart_data (rows.map Row.toChartRow) = []
    ∧ ((display_overall_standings rows).map (fun e => e.totals.name)).Perm
        ((rows.map Row.name).dedup) := by
  refine ⟨?_, standings_names_perm rows⟩
  unfold prepare_rank_chart_data
  rw [if_pos]
  unfold distinctRounds
  rw [List.map_map]
  have hcomp : (ChartRow.spieltag ∘ Row.toChartRow) = Row.spieltag := rfl
  rw [hcomp]
  exact h

/-- Claim C4, instantiated at a one-round row set: the chart data is empty and
the standings list both participants. -/
theorem claimC4_single_round_witness :
    prepare_rank_chart_data (exOneRound.map Row.toChartRow) = []
    ∧ ((display_overall_standings exOneRound).map (fun e => e.totals.name)).Perm
        ((exOneRound.map Row.name).dedup) :=
  claimC4_single_round exOneRound (by decide)

/-- Claim C9: for a selected round (nonzero, as the data model's positive round
numbers guarantee — `if selected_spieltag:` renders nothing for a literal round
0), the detail view holds exactly the rows of that round; it is sorted by
`Tabellenpunkte` descending then `Spieltagspunkte_P` descending, with
`Rank_Pos` ascending as final tie-break exactly when some selected row has a
non-null `Rank_Pos`; when every selected row's `Rank_Pos` is null the column
is omitted (`useRankPos = false`). -/
theorem claimC9_detail_view (rows : List Row) (s : Int) (hs : s ≠ 0) :
    ∃ v, display_individual_spieltag rows s = Option.some v
      ∧ v.rows.Perm (rows.filter (fun r => r.spieltag == s))
      ∧ (v.useRankPos = true
          ↔ ∃ r ∈ rows.filter (fun r => r.spieltag == s), r.rankPos ≠ Option.none)
      ∧ (v.useRankPos = true → v.rows.Pairwise detailLe3)
      ∧ (v.useRankPos = false → v.rows.Pairwise detailLe2) := by
  unfold display_individual_spieltag
  rw [if_neg hs]
  by_cases hall : (rows.filter (fun r => r.spieltag == s)).all
      (fun r => r.rankPos == Option.none) = true
  · rw [if_pos hall]
    refine ⟨_, rfl, List.perm_insertionSort detailLe2 _, ?_, ?_, ?_⟩
    · constructor
      · intro hfalse
        exact absurd hfalse (by simp)
      · intro ⟨r, hr, hrp⟩
        rw [List.all_eq_true] at hall
        exact absurd (beq_iff_eq.mp (hall r hr)) hrp
    · intro hfalse
      exact absurd hfalse (by simp)
    · intro _
      exact List.sorted_insertionSort detailLe2 _
  · rw [if_neg hall]
    refine ⟨_, rfl, List.perm_insertionSort detailLe3 _, ?_, ?_, ?_⟩
    · constructor
      · intro _
        rw [List.all_eq_true] at hall
        push_neg at hall
        obtain ⟨r, hr, hrp⟩ := hall
        exact ⟨r, hr, fun hn => hrp (by rw [hn]; rfl)⟩
      · intro _
        rfl
    · intro _
      exact List.sorted_insertionSort detailLe3 _
    · intro hfalse
      exact absurd hfalse (by simp)

/-- Claim C9, instantiated at the worked example and round 1: the view exists,
holds round 1's rows, and shows the external rank column. -/
theorem claimC9_detail_view_witness :
    ∃ v, display_individual_spieltag exRows 1 = Option.some v
      ∧ v.rows.Perm (exRows.filter (fun r => r.spieltag == 1))
      ∧ (v.useRankPos = true
          ↔ ∃ r ∈ exRows.filter (fun r => r.spieltag == 1), r.rankPos ≠ Option.none)
      ∧ (v.useRankPos = true → v.rows.Pairwise detailLe3)
      ∧ (v.useRankPos = false → v.rows.Pairwise detailLe2) :=
  claimC9_detail_view exRows 1 (by decide)

/-! Loader helpers: shapes of coerced cells, and how the per-column rewrites
act on a row. -/

theorem toDigitsCore_ne_nil (b : Nat) :
    ∀ (f n : Nat) (acc : List Char), (f ≠ 0 ∨ acc ≠ []) →
      Nat.toDigitsCore b f n acc ≠ [] := by
  intro f
  induction f with
  | zero =>
    intro n acc h
    simp only [Nat.toDigitsCore]
    tauto
  | succ f ih =>
    intro n acc h
    simp only [Nat.toDigitsCore]
    by_cases hdiv : n / b = 0
    · simp [hdiv]
    · simp only [hdiv, if_false]
      exact ih (n / b) (Nat.digitChar (n % b) :: acc) (Or.inr (by simp))

theorem natRepr_ne_empty (n : Nat) : Nat.repr n ≠ "" := by
  intro h
  have hdata := congrArg String.data h
  have : Nat.toDigits 10 n = [] := hdata
  exact toDigitsCore_ne_nil 10 (n + 1) n [] (Or.inl (by omega)) this

theorem intToString_ne_empty (n : Int) : toString n ≠ "" := by
  cases n with
  | ofNat m => exact natRepr_ne_empty m
  | negSucc m =>
    intro h
    have hdata := congrArg String.data h
    rw [show toString (Int.negSucc m) = "-" ++ Nat.repr (m + 1) from rfl,
      String.data_append] at hdata
    simp at hdata

theorem toNumericCell_shape (x : Cell) :
    toNumericCell x = Cell.na ∨ ∃ n, toNumericCell x = Cell.num n := by
  cases x with
  | na => exact Or.inl rfl
  | num n => exact Or.inr ⟨n, rfl⟩
  | str s =>
    rcases hs : s.toInt? with _ | n
    · exact Or.inl (by simp [toNumericCell, hs])
    · exact Or.inr ⟨n, by simp [toNumericCell, hs]⟩

theorem toStrCell_shape (x : Cell) (hx : x ≠ Cell.str ("")) :
    ∃ s, toStrCell x = Cell.str s ∧ s ≠ "" := by
  cases x with
  | na => exact ⟨"nan", rfl, by decide⟩
  | num n => exact ⟨toString n, rfl, intToString_ne_empty n⟩
  | str s => exact ⟨s, rfl, fun h => hx (by rw [h])⟩

theorem colIdx_get {h : List String} {c : String} {i : Nat} (hidx : colIdx h c = some i) :
    h[i]? = some c := by
  have h1 := List.findIdx?_eq_some_iff_getElem.mp hidx
  obtain ⟨hlt, hp, _⟩ := h1
  simp only [beq_iff_eq] at hp
  simp [List.getElem?_eq_getElem hlt, hp]

theorem colIdx_inj {h : List String} {c c' : String} {i j : Nat} (hne : c ≠ c')
    (hi : colIdx h c = some i) (hj : colIdx h c' = some j) : i ≠ j := by
  intro heq
  have h1 := colIdx_get hi
  have h2 := colIdx_get hj
  rw [heq, h2] at h1
  exact hne (Option.some_injective _ h1).symm

theorem rowMapAt_getCell_ne (h : List String) (c c' : String) (f : Cell → Cell)
    (row : List Cell) (hne : c ≠ c') :
    getCell h (rowMapAt (colIdx h c) f row) c' = getCell h row c' := by
  unfold rowMapAt
  cases hc : colIdx h c with
  | none => rfl
  | some i =>
    unfold getCell
    cases hc2 : colIdx h c' with
    | none => rfl
    | some j =>
      have hij : i ≠ j := colIdx_inj hne hc hc2
      simp [List.getD_eq_getElem?_getD, List.getElem?_set_ne hij]

theorem rowMapAt_getCell_self (h : List String) (c : String) (f : Cell → Cell)
    (row : List Cell) :
    getCell h (rowMapAt (colIdx h c) f row) c = f (getCell h row c)
      ∨ getCell h (rowMapAt (colIdx h c) f row) c = Cell.na := by
  unfold getCell
  cases hc : colIdx h c with
  | none =>
    right
    simp only [hc]
  | some i =>
    simp only [hc, rowMapAt]
    by_cases hi : i < row.length
    · left
      simp [List.getD_eq_getElem?_getD, List.getElem?_set_self, hi]
    · right
      rw [List.set_eq_of_length_le (by omega)]
      simp [List.getD_eq_getElem?_getD, List.getElem?_eq_none (by omega : row.length ≤ i)]

theorem getCell_mem_or_na (h : List String) (row : List Cell) (c : String) :
    getCell h row c = Cell.na ∨ getCell h row c ∈ row := by
  unfold getCell
  cases hc : colIdx h c with
  | none => exact Or.inl rfl
  | some i =>
    by_cases hi : i < row.length
    · right
      show row.getD i Cell.na ∈ row
      rw [List.getD_eq_getElem?_getD, List.getElem?_eq_getElem hi]
      exact List.getElem_mem hi
    · left
      show row.getD i Cell.na = Cell.na
      simp [List.getD_eq_getElem?_getD, List.getElem?_eq_none (by omega : row.length ≤ i)]

theorem coerceRow_numeric (h : List String) (row : List Cell) (c : String)
    (hc : c ∈ [colSpieltag, colRankPos, colPunkteP, colTabellenpunkte, colTV, colNULL, colSTS]) :
    getCell h (coerceRow h row) c = Cell.na
      ∨ ∃ n, getCell h (coerceRow h row) c = Cell.num n := by
  unfold coerceRow
  have hshape : ∀ (r : List Cell) (c' : String),
      getCell h (rowMapAt (colIdx h c') toNumericCell r) c' = Cell.na
        ∨ ∃ n, getCell h (rowMapAt (colIdx h c') toNumericCell r) c' = Cell.num n := by
    intro r c'
    rcases rowMapAt_getCell_self h c' toNumericCell r with h1 | h1
    · rw [h1]
      exact toNumericCell_shape _
    · exact Or.inl h1
  simp only [List.mem_cons, List.not_mem_nil, or_false] at hc
  rcases hc with rfl | rfl | rfl | rfl | rfl | rfl | rfl
  · rw [rowMapAt_getCell_ne h colName colSpieltag _ _ (by decide),
      rowMapAt_getCell_ne h colSTS colSpieltag _ _ (by decide),
      rowMapAt_getCell_ne h colNULL colSpieltag _ _ (by decide),
      rowMapAt_getCell_ne h colTV colSpieltag _ _ (by decide),
      rowMapAt_getCell_ne h colTabellenpunkte colSpieltag _ _ (by decide),
      rowMapAt_getCell_ne h colPunkteP colSpieltag _ _ (by decide),
      rowMapAt_getCell_ne h colRankPos colSpieltag _ _ (by decide)]
    exact hshape row colSpieltag
  · rw [rowMapAt_getCell_ne h colName colRankPos _ _ (by decide),
      rowMapAt_getCell_ne h colSTS colRankPos _ _ (by decide),
      rowMapAt_getCell_ne h colNULL colRankPos _ _ (by decide),
      rowMapAt_getCell_ne h colTV colRankPos _ _ (by decide),
      rowMapAt_getCell_ne h colTabellenpunkte colRankPos _ _ (by decide),
      rowMapAt_getCell_ne h colPunkteP colRankPos _ _ (by decide)]
    exact hshape _ colRankPos
  · rw [rowMapAt_getCell_ne h colName colPunkteP _ _ (by decide),
      rowMapAt_getCell_ne h colSTS colPunkteP _ _ (by decide),
      rowMapAt_getCell_ne h colNULL colPunkteP _ _ (by decide),
      rowMapAt_getCell_ne h colTV colPunkteP _ _ (by decide),
      rowMapAt_getCell_ne h colTabellenpunkte colPunkteP _ _ (by decide)]
    exact hshape _ colPunkteP
  · rw [rowMapAt_getCell_ne h colName colTabellenpunkte _ _ (by decide),
      rowMapAt_getCell_ne h colSTS colTabellenpunkte _ _ (by decide),
      rowMapAt_getCell_ne h colNULL colTabellenpunkte _ _ (by decide),
      rowMapAt_getCell_ne h colTV colTabellenpunkte _ _ (by decide)]
    exact hshape _ colTabellenpunkte
  · rw [rowMapAt_getCell_ne h colName colTV _ _ (by decide),
      rowMapAt_getCell_ne h colSTS colTV _ _ (by decide),
      rowMapAt_getCell_ne h colNULL colTV _ _ (by decide)]
    exact hshape _ colTV
  · rw [rowMapAt_getCell_ne h colName colNULL _ _ (by decide),
      rowMapAt_getCell_ne h colSTS colNULL _ _ (by decide)]
    exact hshape _ colNULL
  · rw [rowMapAt_getCell_ne h colName colSTS _ _ (by decide)]
    exact hshape _ colSTS

theorem coerceRow_name (h : List String) (row : List Cell)
    (hrow : ∀ x ∈ row, x ≠ Cell.str ("")) :
    getCell h (coerceRow h row) colName = Cell.na
      ∨ ∃ s, getCell h (coerceRow h row) colName = Cell.str s ∧ s ≠ "" := by
  unfold coerceRow
  rcases rowMapAt_getCell_self h colName toStrCell
      (rowMapAt (colIdx h colSTS) toNumericCell
        (rowMapAt (colIdx h colNULL) toNumericCell
          (rowMapAt (colIdx h colTV) toNumericCell
            (rowMapAt (colIdx h colTabellenpunkte) toNumericCell
              (rowMapAt (colIdx h colPunkteP) toNumericCell
                (rowMapAt (colIdx h colRankPos) toNumericCell
                  (rowMapAt (colIdx h colSpieltag) toNumericCell row))))))) with h1 | h1
  · rw [h1]
    have h2 : getCell h (rowMapAt (colIdx h colSTS) toNumericCell
        (rowMapAt (colIdx h colNULL) toNumericCell
          (rowMapAt (colIdx h colTV) toNumericCell
            (rowMapAt (colIdx h colTabellenpunkte) toNumericCell
              (rowMapAt (colIdx h colPunkteP) toNumericCell
                (rowMapAt (colIdx h colRankPos) toNumericCell
                  (rowMapAt (colIdx h colSpieltag) toNumericCell row))))))) colName
        = getCell h row colName := by
      rw [rowMapAt_getCell_ne h colSTS colName _ _ (by decide),
        rowMapAt_getCell_ne h colNULL colName _ _ (by decide),
        rowMapAt_getCell_ne h colTV colName _ _ (by decide),
        rowMapAt_getCell_ne h colTabellenpunkte colName _ _ (by decide),
        rowMapAt_getCell_ne h colPunkteP colName _ _ (by decide),
        rowMapAt_getCell_ne h colRankPos colName _ _ (by decide),
        rowMapAt_getCell_ne h colSpieltag colName _ _ (by decide)]
    rw [h2]
    have hx : getCell h row colName ≠ Cell.str ("") := by
      rcases getCell_mem_or_na h row colName with hna | hmem
      · rw [hna]
        intro hcontra
        exact Cell.noConfusion hcontra
      · exact hrow _ hmem
    exact Or.inr (toStrCell_shape _ hx)
  · exact Or.inl h1

theorem coerceRow_na (h : List String) (row : List Cell) (c : String)
    (hc : c ∈ [colRankPos, colPunkteP]) (hna : getCell h row c = Cell.na) :
    getCell h (coerceRow h row) c = Cell.na := by
  unfold coerceRow
  simp only [List.mem_cons, List.not_mem_nil, or_false] at hc
  rcases hc with rfl | rfl
  · rw [rowMapAt_getCell_ne h colName colRankPos _ _ (by decide),
      rowMapAt_getCell_ne h colSTS colRankPos _ _ (by decide),
      rowMapAt_getCell_ne h colNULL colRankPos _ _ (by decide),
      rowMapAt_getCell_ne h colTV colRankPos _ _ (by decide),
      rowMapAt_getCell_ne h colTabellenpunkte colRankPos _ _ (by decide),
      rowMapAt_getCell_ne h colPunkteP colRankPos _ _ (by decide)]
    rcases rowMapAt_getCell_self h colRankPos toNumericCell
        (rowMapAt (colIdx h colSpieltag) toNumericCell row) with h1 | h1
    · rw [h1, rowMapAt_getCell_ne h colSpieltag colRankPos _ _ (by decide), hna]
      rfl
    · exact h1
  · rw [rowMapAt_getCell_ne h colName colPunkteP _ _ (by decide),
      rowMapAt_getCell_ne h colSTS colPunkteP _ _ (by decide),
      rowMapAt_getCell_ne h colNULL colPunkteP _ _ (by decide),
      rowMapAt_getCell_ne h colTV colPunkteP _ _ (by decide),
      rowMapAt_getCell_ne h colTabellenpunkte colPunkteP _ _ (by decide)]
    rcases rowMapAt_getCell_self h colPunkteP toNumericCell
        (rowMapAt (colIdx h colRankPos) toNumericCell
          (rowMapAt (colIdx h colSpieltag) toNumericCell row)) with h1 | h1
    · rw [h1, rowMapAt_getCell_ne h colRankPos colPunkteP _ _ (by decide),
        rowMapAt_getCell_ne h colSpieltag colPunkteP _ _ (by decide), hna]
      rfl
    · exact h1

theorem fillCellFor_shape (c : String) :
    fillCellFor c = Cell.na ∨ fillCellFor c = Cell.num 0 := by
  unfold fillCellFor
  by_cases hc : c ∈ [colTV, colNULL, colSTS]
  · rw [if_pos hc]
    exact Or.inr rfl
  · rw [if_neg hc]
    exact Or.inl rfl

theorem addMissingCols_row_mem :
    ∀ (cols : List String) (df : DF) (row : List Cell),
      row ∈ (cols.foldl addColIfMissing df).rows →
      ∃ orig fills, orig ∈ df.rows ∧ row = orig ++ fills ∧
        ∀ x ∈ fills, x = Cell.na ∨ x = Cell.num 0 := by
  intro cols
  induction cols with
  | nil =>
    intro df row hrow
    exact ⟨row, [], hrow, by simp, by simp⟩
  | cons c cs ih =>
    intro df row hrow
    rw [List.foldl_cons] at hrow
    obtain ⟨orig1, fills1, ho1, he1, hf1⟩ := ih (addColIfMissing df c) row hrow
    unfold addColIfMissing at ho1
    by_cases hc : c ∈ df.header
    · rw [if_pos hc] at ho1
      exact ⟨orig1, fills1, ho1, he1, hf1⟩
    · rw [if_neg hc] at ho1
      obtain ⟨orig0, ho0, he0⟩ := List.mem_map.mp ho1
      refine ⟨orig0, fillCellFor c :: fills1, ho0, ?_, ?_⟩
      · rw [he1, ← he0]
        simp
      · intro x hx
        rcases List.mem_cons.mp hx with hxe | hxm
        · rw [hxe]
          exact fillCellFor_shape c
        · exact hf1 x hxm

theorem addColIfMissing_align (df : DF) (c : String)
    (halign : ∀ row ∈ df.rows, row.length = df.header.length) :
    ∀ row ∈ (addColIfMissing df c).rows,
      row.length = (addColIfMissing df c).header.length := by
  unfold addColIfMissing
  by_cases hc : c ∈ df.header
  · rw [if_pos hc]
    exact halign
  · rw [if_neg hc]
    intro row hrow
    obtain ⟨orig, ho, he⟩ := List.mem_map.mp hrow
    rw [← he]
    simp [halign orig ho]

theorem getCell_append_preserve (h : List String) (c c' : String) (row : List Cell)
    (x : Cell) (hc' : c' ∉ h) (halign : row.length = h.length) :
    getCell (h ++ [c']) (row ++ [x]) c
      = if c = c' then x else getCell h row c := by
  unfold getCell colIdx
  have hnone : h.findIdx? (· == c') = none := by
    rw [List.findIdx?_eq_none_iff]
    intro y hy
    simp only [beq_eq_false_iff_ne, ne_eq]
    intro hcontra
    exact hc' (hcontra ▸ hy)
  by_cases hcc : c = c'
  · subst hcc
    rw [if_pos rfl, List.findIdx?_append, hnone]
    have hone : ([c].findIdx? (· == c)) = some 0 := by
      simp [List.findIdx?_cons]
    rw [hone]
    show (row ++ [x]).getD (0 + h.length) Cell.na = x
    have hzero : 0 + h.length = h.length := by omega
    rw [hzero, List.getD_eq_getElem?_getD,
      List.getElem?_append_right (by omega : row.length ≤ h.length)]
    have hsub : h.length - row.length = 0 := by omega
    rw [hsub]
    rfl
  · rw [if_neg hcc, List.findIdx?_append]
    cases hfi : h.findIdx? (· == c) with
    | none =>
      have hone : ([c'].findIdx? (· == c)) = none := by
        simp only [List.findIdx?_cons, List.findIdx?_nil]
        simp only [beq_iff_eq]
        rw [if_neg (fun hcontra => hcc hcontra.symm)]
      rw [hone]
      rfl
    | some i =>
      have hi : i < h.length := (List.findIdx?_eq_some_iff_getElem.mp hfi).1
      have hilt : i < row.length := by omega
      show (row ++ [x]).getD i Cell.na = row.getD i Cell.na
      rw [List.getD_eq_getElem?_getD, List.getD_eq_getElem?_getD,
        List.getElem?_append_left hilt]

theorem addColIfMissing_getCell_pres (df : DF) (c c' : String)
    (halign : ∀ row ∈ df.rows, row.length = df.header.length)
    (hP : ∀ row ∈ df.rows, getCell df.header row c = fillCellFor c) :
    ∀ row ∈ (addColIfMissing df c').rows,
      getCell (addColIfMissing df c').header row c = fillCellFor c := by
  by_cases hc' : c' ∈ df.header
  · simp only [addColIfMissing, if_pos hc']
    exact hP
  · simp only [addColIfMissing, if_neg hc']
    intro row hrow
    obtain ⟨orig, ho, he⟩ := List.mem_map.mp hrow
    rw [← he,
      getCell_append_preserve df.header c c' orig (fillCellFor c') hc' (halign orig ho)]
    by_cases hcc : c = c'
    · rw [if_pos hcc, hcc]
    · rw [if_neg hcc]
      exact hP orig ho

theorem addColIfMissing_getCell_new (df : DF) (c : String)
    (halign : ∀ row ∈ df.rows, row.length = df.header.length) (hc : c ∉ df.header) :
    ∀ row ∈ (addColIfMissing df c).rows,
      getCell (addColIfMissing df c).header row c = fillCellFor c := by
  simp only [addColIfMissing, if_neg hc]
  intro row hrow
  obtain ⟨orig, ho, he⟩ := List.mem_map.mp hrow
  rw [← he,
    getCell_append_preserve df.header c c orig (fillCellFor c) hc (halign orig ho),
    if_pos rfl]

theorem addColIfMissing_not_header (df : DF) (c c' : String) (hcc : c ≠ c')
    (hnot : c ∉ df.header) : c ∉ (addColIfMissing df c').header := by
  unfold addColIfMissing
  by_cases hc' : c' ∈ df.header
  · rw [if_pos hc']
    exact hnot
  · rw [if_neg hc']
    intro hmem
    rcases List.mem_append.mp hmem with hmem | hmem
    · exact hnot hmem
    · exact hcc (List.mem_singleton.mp hmem)

theorem addMissing_fold_align :
    ∀ (cols : List String) (df : DF),
      (∀ row ∈ df.rows, row.length = df.header.length) →
      ∀ row ∈ (cols.foldl addColIfMissing df).rows,
        row.length = (cols.foldl addColIfMissing df).header.length := by
  intro cols
  induction cols with
  | nil => intro df halign; exact halign
  | cons c' cs ih =>
    intro df halign
    rw [List.foldl_cons]
    exact ih (addColIfMissing df c') (addColIfMissing_align df c' halign)

theorem addMissing_fold_fill (c : String) :
    ∀ (cols : List String) (df : DF),
      (∀ row ∈ df.rows, row.length = df.header.length) →
      (∀ row ∈ df.rows, getCell df.header row c = fillCellFor c) →
      ∀ row ∈ (cols.foldl addColIfMissing df).rows,
        getCell (cols.foldl addColIfMissing df).header row c = fillCellFor c := by
  intro cols
  induction cols with
  | nil => intro df _ hP; exact hP
  | cons c' cs ih =>
    intro df halign hP
    rw [List.foldl_cons]
    exact ih (addColIfMissing df c') (addColIfMissing_align df c' halign)
      (addColIfMissing_getCell_pres df c c' halign hP)

theorem addMissing_fold_main (c : String) :
    ∀ (cols : List String) (df : DF), c ∈ cols →
      (∀ row ∈ df.rows, row.length = df.header.length) →
      c ∉ df.header →
      ∀ row ∈ (cols.foldl addColIfMissing df).rows,
        getCell (cols.foldl addColIfMissing df).header row c = fillCellFor c := by
  intro cols
  induction cols with
  | nil => intro df hc; exact absurd hc (List.not_mem_nil c)
  | cons c' cs ih =>
    intro df hmem halign hnot
    rw [List.foldl_cons]
    by_cases hcc : c = c'
    · subst hcc
      exact addMissing_fold_fill c cs (addColIfMissing df c)
        (addColIfMissing_align df c halign)
        (addColIfMissing_getCell_new df c halign hnot)
    · have hmem2 : c ∈ cs := by
        rcases List.mem_cons.mp hmem with h | h
        · exact absurd h hcc
        · exact h
      exact ih (addColIfMissing df c') hmem2 (addColIfMissing_align df c' halign)
        (addColIfMissing_not_header df c c' hcc hnot)

theorem load_data_parsed_eq (t : DF)
    (hrows : ¬ t.rows.isEmpty = true)
    (hcols : (REQUIRED_COLUMNS.filter (fun c => decide (c ∉ t.header))).isEmpty = true) :
    load_data (FileInput.parsed t) =
      if (dropnaEssential (coerceTypes (addMissingCols t))).rows.isEmpty
      then ⟨empty_df, Diag.silentEmpty⟩
      else ⟨selectCols (dropnaEssential (coerceTypes (addMissingCols t)))
        ALL_EXPECTED_COLUMNS, Diag.ok⟩ := by
  simp only [load_data, if_neg hrows, if_pos hcols]

theorem getCell_map_expected (g : String → Cell) :
    getCell ALL_EXPECTED_COLUMNS (ALL_EXPECTED_COLUMNS.map g) colSpieltag = g colSpieltag
    ∧ getCell ALL_EXPECTED_COLUMNS (ALL_EXPECTED_COLUMNS.map g) colRankPos = g colRankPos
    ∧ getCell ALL_EXPECTED_COLUMNS (ALL_EXPECTED_COLUMNS.map g) colName = g colName
    ∧ getCell ALL_EXPECTED_COLUMNS (ALL_EXPECTED_COLUMNS.map g) colPunkteP = g colPunkteP
    ∧ getCell ALL_EXPECTED_COLUMNS (ALL_EXPECTED_COLUMNS.map g) colTabellenpunkte
        = g colTabellenpunkte
    ∧ getCell ALL_EXPECTED_COLUMNS (ALL_EXPECTED_COLUMNS.map g) colTV = g colTV
    ∧ getCell ALL_EXPECTED_COLUMNS (ALL_EXPECTED_COLUMNS.map g) colNULL = g colNULL
    ∧ getCell ALL_EXPECTED_COLUMNS (ALL_EXPECTED_COLUMNS.map g) colSTS = g colSTS :=
  ⟨rfl, rfl, rfl, rfl, rfl, rfl, rfl, rfl⟩

theorem rowValid_cells (h : List String) (row : List Cell) (hv : rowValid h row = true) :
    getCell h row colSpieltag ≠ Cell.na ∧ getCell h row colName ≠ Cell.na
    ∧ getCell h row colTabellenpunkte ≠ Cell.na ∧ getCell h row colTV ≠ Cell.na
    ∧ getCell h row colNULL ≠ Cell.na ∧ getCell h row colSTS ≠ Cell.na := by
  unfold rowValid at hv
  rw [List.all_eq_true] at hv
  refine ⟨?_, ?_, ?_, ?_, ?_, ?_⟩ <;>
    [exact bne_iff_ne.mp (hv colSpieltag (by decide));
     exact bne_iff_ne.mp (hv colName (by decide));
     exact bne_iff_ne.mp (hv colTabellenpunkte (by decide));
     exact bne_iff_ne.mp (hv colTV (by decide));
     exact bne_iff_ne.mp (hv colNULL (by decide));
     exact bne_iff_ne.mp (hv colSTS (by decide))]

/-- Claim C5: after numeric coercion the loader keeps exactly the rows whose
six required cells are all present (`dropna(subset=essential_cols)`), and every
row it returns has the five required numeric fields present as numbers and the
participant name present as a non-empty string. Text cells of the parsed file
are non-empty, as `read_csv` turns empty fields into NaN. -/
theorem claimC5_row_validation (t : DF)
    (hrows : ¬ t.rows.isEmpty = true)
    (hcols : (REQUIRED_COLUMNS.filter (fun c => decide (c ∉ t.header))).isEmpty = true)
    (hstr : ∀ row ∈ t.rows, ∀ x ∈ row, x ≠ Cell.str ("")) :
    ((load_data (FileInput.parsed t)).df.rows
        = (((addMissingCols t).rows.map (coerceRow (addMissingCols t).header)).filter
            (rowValid (addMissingCols t).header)).map
          (fun row => ALL_EXPECTED_COLUMNS.map (getCell (addMissingCols t).header row)))
    ∧ (∀ row ∈ (load_data (FileInput.parsed t)).df.rows,
        (∃ n, getCell ALL_EXPECTED_COLUMNS row colSpieltag = Cell.num n)
        ∧ (∃ s, getCell ALL_EXPECTED_COLUMNS row colName = Cell.str s ∧ s ≠ "")
        ∧ (∃ n, getCell ALL_EXPECTED_COLUMNS row colTabellenpunkte = Cell.num n)
        ∧ (∃ n, getCell ALL_EXPECTED_COLUMNS row colTV = Cell.num n)
        ∧ (∃ n, getCell ALL_EXPECTED_COLUMNS row colNULL = Cell.num n)
        ∧ (∃ n, getCell ALL_EXPECTED_COLUMNS row colSTS = Cell.num n)) := by
  have hall : ∀ row ∈ (addMissingCols t).rows, ∀ x ∈ row, x ≠ Cell.str ("") := by
    intro row1 hrow1 x hx
    obtain ⟨orig, fills, horig, hdecomp, hfills⟩ :=
      addMissingCols_row_mem ALL_EXPECTED_COLUMNS t row1 hrow1
    rw [hdecomp] at hx
    rcases List.mem_append.mp hx with hx | hx
    · exact hstr orig horig x hx
    · rcases hfills x hx with hf | hf
      · rw [hf]
        intro hcontra
        exact Cell.noConfusion hcontra
      · rw [hf]
        intro hcontra
        exact Cell.noConfusion hcontra
  rw [load_data_parsed_eq t hrows hcols]
  generalize hX : addMissingCols t = X at hall ⊢
  by_cases hkept : (dropnaEssential (coerceTypes X)).rows.isEmpty = true
  · rw [if_pos hkept]
    have hnil : ((X.rows.map (coerceRow X.header)).filter (rowValid X.header)) = [] :=
      List.isEmpty_iff.mp hkept
    constructor
    · rw [hnil]
      rfl
    · intro row hrow
      exact absurd hrow (List.not_mem_nil row)
  · rw [if_neg hkept]
    constructor
    · rfl
    · intro row hrow
      obtain ⟨kRow, hk, hre⟩ := List.mem_map.mp hrow
      have hk2 := List.mem_filter.mp hk
      obtain ⟨hkmem, hkvalid⟩ := hk2
      obtain ⟨row1, hrow1, heq⟩ := List.mem_map.mp hkmem
      have hstr1 : ∀ x ∈ row1, x ≠ Cell.str ("") := hall row1 hrow1
      obtain ⟨hvS, hvN, hvT, hvTV, hvNU, hvST⟩ := rowValid_cells X.header kRow hkvalid
      obtain ⟨hg1, hg2, hg3, hg4, hg5, hg6, hg7, hg8⟩ :=
        getCell_map_expected (getCell X.header kRow)
      have hh : (dropnaEssential (coerceTypes X)).header = X.header := rfl
      rw [hh] at hre
      rw [← hre]
      rw [← heq] at hvS hvN hvT hvTV hvNU hvST
      refine ⟨?_, ?_, ?_, ?_, ?_, ?_⟩
      · rw [hg1, ← heq]
        rcases coerceRow_numeric X.header row1 colSpieltag (by decide) with hna | hnum
        · exact absurd hna hvS
        · exact hnum
      · rw [hg3, ← heq]
        rcases coerceRow_name X.header row1 hstr1 with hna | hs
        · exact absurd hna hvN
        · exact hs
      · rw [hg5, ← heq]
        rcases coerceRow_numeric X.header row1 colTabellenpunkte (by decide) with hna | hnum
        · exact absurd hna hvT
        · exact hnum
      · rw [hg6, ← heq]
        rcases coerceRow_numeric X.header row1 colTV (by decide) with hna | hnum
        · exact absurd hna hvTV
        · exact hnum
      · rw [hg7, ← heq]
        rcases coerceRow_numeric X.header row1 colNULL (by decide) with hna | hnum
        · exact absurd hna hvNU
        · exact hnum
      · rw [hg8, ← heq]
        rcases coerceRow_numeric X.header row1 colSTS (by decide) with hna | hnum
        · exact absurd hna hvST
        · exact hnum

/-- Claim C5, instantiated: loading a file with one clean row and one row whose
essential `Tabellenpunkte` is missing keeps exactly the clean row, with all six
required fields valid. -/
theorem claimC5_row_validation_witness :
    ((load_data (FileInput.parsed exDropRow)).df.rows
        = (((addMissingCols exDropRow).rows.map
              (coerceRow (addMissingCols exDropRow).header)).filter
            (rowValid (addMissingCols exDropRow).header)).map
          (fun row => ALL_EXPECTED_COLUMNS.map (getCell (addMissingCols exDropRow).header row)))
    ∧ (∀ row ∈ (load_data (FileInput.parsed exDropRow)).df.rows,
        (∃ n, getCell ALL_EXPECTED_COLUMNS row colSpieltag = Cell.num n)
        ∧ (∃ s, getCell ALL_EXPECTED_COLUMNS row colName = Cell.str s ∧ s ≠ "")
        ∧ (∃ n, getCell ALL_EXPECTED_COLUMNS row colTabellenpunkte = Cell.num n)
        ∧ (∃ n, getCell ALL_EXPECTED_COLUMNS row colTV = Cell.num n)
        ∧ (∃ n, getCell ALL_EXPECTED_COLUMNS row colNULL = Cell.num n)
        ∧ (∃ n, getCell ALL_EXPECTED_COLUMNS row colSTS = Cell.num n)) :=
  claimC5_row_validation exDropRow (by decide) (by decide) (by decide)

theorem addMissingCols_fill (t : DF) (c : String) (hc : c ∈ ALL_EXPECTED_COLUMNS)
    (halign : ∀ row ∈ t.rows, row.length = t.header.length) (hnotin : c ∉ t.header) :
    ∀ row ∈ (addMissingCols t).rows,
      getCell (addMissingCols t).header row c = fillCellFor c :=
  addMissing_fold_main c ALL_EXPECTED_COLUMNS t hc halign hnotin

/-- Claim C6 as stated is false: a file whose header lacks required columns but
which parses to zero data rows is returned early by the `df.empty` check
(app.py line 34), before the missing-column check (line 36), so no diagnostic
names the missing columns. -/
theorem claimC6_counterexample :
    colTabellenpunkte ∈ REQUIRED_COLUMNS
    ∧ colTabellenpunkte ∉ exHeaderOnly.header
    ∧ load_data (FileInput.parsed exHeaderOnly) = ⟨empty_df, Diag.silentEmpty⟩
    ∧ Diag.silentEmpty ≠ Diag.missingCols (REQUIRED_COLUMNS.filter
        (fun c => decide (c ∉ exHeaderOnly.header))) := by
  decide

/-- Claim C6, amended: for every parsed file with at least one data row whose
header lacks at least one required column, the loader returns the empty frame
and a diagnostic naming exactly the missing required columns, in order. -/
theorem claimC6_missing_columns (t : DF)
    (hrows : ¬ t.rows.isEmpty = true)
    (hmiss : ¬ (REQUIRED_COLUMNS.filter (fun c => decide (c ∉ t.header))).isEmpty = true) :
    load_data (FileInput.parsed t)
      = ⟨empty_df, Diag.missingCols
          (REQUIRED_COLUMNS.filter (fun c => decide (c ∉ t.header)))⟩ := by
  simp only [load_data, if_neg hrows, if_neg hmiss]

/-- Claim C6, amended, instantiated: one data row and only `Spieltag`/`Name` in
the header yields the diagnostic naming the other four required columns. -/
theorem claimC6_missing_columns_witness :
    load_data (FileInput.parsed exMissingCols)
      = ⟨empty_df, Diag.missingCols
          (REQUIRED_COLUMNS.filter (fun c => decide (c ∉ exMissingCols.header)))⟩ :=
  claimC6_missing_columns exMissingCols (by decide) (by decide)

/-- Claim C7 as stated is false: on a successful load the only expected columns
that can be absent are the numeric optional ones (`Rank_Pos`,
`Spieltagspunkte_P`), and the code backfills them with the null marker
`pd.NA`, not with 0. -/
theorem claimC7_counterexample :
    (load_data (FileInput.parsed exRequiredOnly)).diag = Diag.ok
    ∧ colRankPos ∉ exRequiredOnly.header
    ∧ (load_data (FileInput.parsed exRequiredOnly)).df.rows
        = [[Cell.num 1, Cell.na, Cell.str ("A"), Cell.na, Cell.num 3, Cell.num 0,
            Cell.num 0, Cell.num 0]]
    ∧ getCell ALL_EXPECTED_COLUMNS
        [Cell.num 1, Cell.na, Cell.str ("A"), Cell.na, Cell.num 3, Cell.num 0, Cell.num 0,
          Cell.num 0] colRankPos = Cell.na
    ∧ Cell.na ≠ Cell.num 0 := by
  decide

/-- Claim C7, amended: on every load that succeeds, the output holds exactly
the fixed complete expected columns in fixed order; an expected column absent
from the input is necessarily one of the optional numeric columns (`Rank_Pos`,
`Spieltagspunkte_P`) and is backfilled with the null marker in every output
row (the flag columns would be backfilled with 0, but they are required, so
that branch cannot be reached on a successful load). Input rows are
positionally aligned with the header, as `read_csv` guarantees. -/
theorem claimC7_backfill (t : DF)
    (halign : ∀ row ∈ t.rows, row.length = t.header.length)
    (hok : (load_data (FileInput.parsed t)).diag = Diag.ok) :
    (load_data (FileInput.parsed t)).df.header = ALL_EXPECTED_COLUMNS
    ∧ ∀ c ∈ ALL_EXPECTED_COLUMNS, c ∉ t.header →
        (c = colRankPos ∨ c = colPunkteP)
        ∧ ∀ row ∈ (load_data (FileInput.parsed t)).df.rows,
            getCell ALL_EXPECTED_COLUMNS row c = Cell.na := by
  by_cases hrows : t.rows.isEmpty = true
  · rw [show load_data (FileInput.parsed t) = ⟨empty_df, Diag.silentEmpty⟩ from by
      simp only [load_data, if_pos hrows]] at hok
    exact absurd hok (by simp)
  · by_cases hcols : (REQUIRED_COLUMNS.filter (fun c => decide (c ∉ t.header))).isEmpty = true
    · have hfill : ∀ c ∈ ALL_EXPECTED_COLUMNS, c ∉ t.header →
          ∀ row ∈ (addMissingCols t).rows,
            getCell (addMissingCols t).header row c = fillCellFor c :=
        fun c hc hnotin => addMissingCols_fill t c hc halign hnotin
      rw [load_data_parsed_eq t hrows hcols] at hok ⊢
      generalize hX : addMissingCols t = X at hfill hok ⊢
      by_cases hkept : (dropnaEssential (coerceTypes X)).rows.isEmpty = true
      · rw [if_pos hkept] at hok
        exact absurd hok (by simp)
      · rw [if_neg hkept] at hok ⊢
        constructor
        · rfl
        · intro c hcALL hnotin
          have hnotreq : c ∉ REQUIRED_COLUMNS := by
            intro hreq
            have hmem : c ∈ REQUIRED_COLUMNS.filter (fun c => decide (c ∉ t.header)) :=
              List.mem_filter.mpr ⟨hreq, by simpa using hnotin⟩
            rw [List.isEmpty_iff.mp hcols] at hmem
            exact absurd hmem (List.not_mem_nil c)
          have hopt : c = colRankPos ∨ c = colPunkteP := by
            simp only [ALL_EXPECTED_COLUMNS, List.mem_cons, List.not_mem_nil,
              or_false] at hcALL
            rcases hcALL with rfl | rfl | rfl | rfl | rfl | rfl | rfl | rfl
            · exact absurd (by decide) hnotreq
            · exact Or.inl rfl
            · exact absurd (by decide) hnotreq
            · exact Or.inr rfl
            · exact absurd (by decide) hnotreq
            · exact absurd (by decide) hnotreq
            · exact absurd (by decide) hnotreq
            · exact absurd (by decide) hnotreq
          refine ⟨hopt, ?_⟩
          intro row hrow
          obtain ⟨kRow, hk, hre⟩ := List.mem_map.mp hrow
          have hh : (dropnaEssential (coerceTypes X)).header = X.header := rfl
          rw [hh] at hre
          obtain ⟨hkmem, _⟩ := List.mem_filter.mp hk
          obtain ⟨row1, hrow1, heq⟩ := List.mem_map.mp hkmem
          have hna1 : getCell X.header row1 c = Cell.na := by
            rw [hfill c hcALL hnotin row1 hrow1]
            rcases hopt with rfl | rfl
            · decide
            · decide
          have hcoerce : getCell X.header kRow c = Cell.na := by
            rw [← heq]
            refine coerceRow_na X.header row1 c ?_ hna1
            rcases hopt with rfl | rfl
            · decide
            · decide
          rw [← hre]
          obtain ⟨_, hg2, _, hg4, _, _, _, _⟩ :=
            getCell_map_expected (getCell X.header kRow)
          rcases hopt with rfl | rfl
          · rw [hg2]
            exact hcoerce
          · rw [hg4]
            exact hcoerce
    · rw [show load_data (FileInput.parsed t) = ⟨empty_df, Diag.missingCols
          (REQUIRED_COLUMNS.filter (fun c => decide (c ∉ t.header)))⟩ from by
        simp only [load_data, if_neg hrows, if_neg hcols]] at hok
      exact absurd hok (by simp)

/-- Claim C7, amended, instantiated at a file with only the required columns:
the load succeeds, the output header is the fixed expected list, and the
absent optional columns are null in the output row. -/
theorem claimC7_backfill_witness :
    (load_data (FileInput.parsed exRequiredOnly)).df.header = ALL_EXPECTED_COLUMNS
    ∧ ∀ c ∈ ALL_EXPECTED_COLUMNS, c ∉ exRequiredOnly.header →
        (c = colRankPos ∨ c = colPunkteP)
        ∧ ∀ row ∈ (load_data (FileInput.parsed exRequiredOnly)).df.rows,
            getCell ALL_EXPECTED_COLUMNS row c = Cell.na :=
  claimC7_backfill exRequiredOnly (by decide) (by decide)

/-- Claim C8: a missing file yields the empty frame with the file-not-found
diagnostic; an on-disk empty file, or a parsed file with zero data rows,
yields the empty frame as a non-error outcome. -/
theorem claimC8_empty_inputs :
    load_data FileInput.missingFile = ⟨empty_df, Diag.fileNotFound⟩
    ∧ (load_data FileInput.emptyFile).df.rows = []
    ∧ (load_data FileInput.emptyFile).diag.isError = false
    ∧ ∀ t : DF, t.rows = [] →
        (load_data (FileInput.parsed t)).df.rows = []
        ∧ (load_data (FileInput.parsed t)).diag.isError = false := by
  refine ⟨rfl, rfl, rfl, ?_⟩
  intro t ht
  have hempty : t.rows.isEmpty = true := List.isEmpty_iff.mpr ht
  rw [show load_data (FileInput.parsed t) = ⟨empty_df, Diag.silentEmpty⟩ from by
    simp only [load_data, if_pos hempty]]
  exact ⟨rfl, rfl⟩

/-- Claim C10: the loader is total — every input yields a result, and every
failure path (file missing, empty file, the branch modelling an unexpected
parse exception, missing columns, or no surviving rows) yields an empty row
set that still carries the full fixed expected column list; the
unexpected-exception outcome is exactly the empty frame. -/
theorem claimC10_total_loader :
    (∀ i : FileInput, (load_data i).df.header = ALL_EXPECTED_COLUMNS
      ∧ ((load_data i).diag ≠ Diag.ok → (load_data i).df.rows = []))
    ∧ load_data FileInput.unparsable = ⟨empty_df, Diag.unexpectedError⟩ := by
  refine ⟨?_, rfl⟩
  intro i
  cases i with
  | missingFile => exact ⟨rfl, fun _ => rfl⟩
  | emptyFile => exact ⟨rfl, fun _ => rfl⟩
  | unparsable => exact ⟨rfl, fun _ => rfl⟩
  | parsed t =>
    by_cases hrows : t.rows.isEmpty = true
    · rw [show load_data (FileInput.parsed t) = ⟨empty_df, Diag.silentEmpty⟩ from by
        simp only [load_data, if_pos hrows]]
      exact ⟨rfl, fun _ => rfl⟩
    · by_cases hcols : (REQUIRED_COLUMNS.filter
          (fun c => decide (c ∉ t.header))).isEmpty = true
      · rw [load_data_parsed_eq t hrows hcols]
        by_cases hkept : (dropnaEssential (coerceTypes (addMissingCols t))).rows.isEmpty = true
        · rw [if_pos hkept]
          exact ⟨rfl, fun _ => rfl⟩
        · rw [if_neg hkept]
          exact ⟨rfl, fun hne => absurd rfl hne⟩
      · rw [show load_data (FileInput.parsed t) = ⟨empty_df, Diag.missingCols
            (REQUIRED_COLUMNS.filter (fun c => decide (c ∉ t.header)))⟩ from by
          simp only [load_data, if_neg hrows, if_neg hcols]]
        exact ⟨rfl, fun _ => rfl⟩
